import Mathlib

/-!
Verification of the model-registry synchronization and lifecycle tracker of
the copilot-cli repository: the Ollama serving client (`lib/ollama-client.js`),
the Google Drive cloud-sync client (`GoogleDriveManager`) and the registry
orchestrator (`ModelManager`).  JavaScript strings are embedded as `String` /
`List Char`, timestamps as `Nat` drawn from an explicit clock oracle
(`clock : Nat → Nat` applied to a running observation counter, one observation
per `Date.now()` / `new Date()` call in the source), external outcomes
(HTTP results, subprocess results) as explicit `Except String` parameters, and
the event-emitter as an explicit event log threaded through the state.
-/

/-! ## Definitions -/

namespace OllamaStream

/-- Prepend a character to the first piece of a split (the way a character
that is not a newline extends the first line of the remaining text). -/
def consHead (c : Char) : List (List Char) → List (List Char)
  | [] => [[c]]
  | h :: t => (c :: h) :: t

/-- The newline split used by `OllamaClient.pullModel` and
`OllamaClient.streamGenerate`: `buffer.split('\n')` on a JavaScript string,
embedded on `List Char`.  Like the JavaScript `split`, the result is always
nonempty and the pieces contain no newline. -/
def splitNl : List Char → List (List Char)
  | [] => [[]]
  | c :: cs => if c = '\n' then [] :: splitNl cs else consHead c (splitNl cs)

/-- Whether a piece of buffered text is free of newline characters. -/
def nlFree (l : List Char) : Prop := '\n' ∉ l

/-- One `res.on('data', chunk => ...)` step of `OllamaClient.pullModel` (and
`OllamaClient.streamGenerate`): append the chunk to the buffer, split on
newlines, hand every piece but the last to the per-line handler, and keep the
last piece as the new buffer (`buffer = lines[lines.length - 1]`). -/
def feedChunk (buf chunk : List Char) : List (List Char) × List Char :=
  ((splitNl (buf ++ chunk)).dropLast, (splitNl (buf ++ chunk)).getLastD [])

/-- Feed a sequence of chunks through the streaming parser, accumulating the
complete lines handed to the per-line handler, starting from buffer `buf`. -/
def runChunksAux : List (List Char) → List (List Char) → List Char →
    List (List Char) × List Char
  | [], acc, buf => (acc, buf)
  | chunk :: cs, acc, buf =>
    runChunksAux cs (acc ++ (feedChunk buf chunk).1) (feedChunk buf chunk).2

/-- Feed a sequence of chunks through the streaming parser from the initial
empty buffer (`let buffer = ''` in the source), returning the complete lines
forwarded in order and the final unconsumed buffer. -/
def runChunks (cs : List (List Char)) : List (List Char) × List Char :=
  runChunksAux cs [] []

/-- JavaScript whitespace test used by `line.trim()`. -/
def isJsSpace (c : Char) : Bool :=
  (c == ' ') || (c == '\n') || (c == '\t') || (c == '\r')

/-- The `line.trim()` of the source, on `List Char`. -/
def jsTrim (l : List Char) : List Char :=
  ((l.dropWhile isJsSpace).reverse.dropWhile isJsSpace).reverse

/-- The per-line handler of `OllamaClient.pullModel` and
`OllamaClient.streamGenerate`: skip a line whose trimmed form is empty,
otherwise attempt `JSON.parse(line)`; a parse failure is ignored.  The JSON
parser is abstracted as an oracle returning `none` on a parse error. -/
def handleLine {α : Type} (jsonParse : List Char → Option α) (line : List Char) :
    Option α :=
  if jsTrim line = [] then none else jsonParse line

/-- The sequence of parsed progress records forwarded by the streaming parser
over a given decomposition of the response body into chunks. -/
def streamRecords {α : Type} (jsonParse : List Char → Option α)
    (cs : List (List Char)) : List α :=
  ((runChunks cs).1).filterMap (handleLine jsonParse)

end OllamaStream

namespace OllamaClient

/-- The resolved value of a completed pull, `{success: true, model}` in the
source. -/
structure PullSuccess where
  success : Bool
  model : String
deriving DecidableEq, Repr

/-- The `res.on('end')` handler of `OllamaClient.pullModel`, from the source:
it resolves `{success: true, model}` iff `res.statusCode === 200` and rejects
with a transfer error for every other status code. -/
def pullModelEndResult (statusCode : Nat) (modelName : String) :
    Except String PullSuccess :=
  if statusCode = 200 then .ok ⟨true, modelName⟩
  else .error ("Failed to pull model: HTTP " ++ toString statusCode)

/-- Membership of an HTTP status code in the success class, the condition
`res.statusCode >= 200 && res.statusCode < 300` that the repository's own
fix log says the pull handler uses. -/
def isSuccessClass (statusCode : Nat) : Bool :=
  (200 ≤ statusCode) && (statusCode < 300)

end OllamaClient

namespace GoogleDriveManager

/-- One retry advisory emitted by `_executePythonScript`: the exponential
backoff delay in milliseconds waited before the retry and the 1-based attempt
number carried by the emitted `retry` event. -/
structure RetryEvent where
  delayMs : Nat
  attempt : Nat
deriving DecidableEq, Repr

/-- The retry loop of `GoogleDriveManager._executePythonScript` from the
source: attempts are numbered from 0; a failed attempt with
`attempt < maxRetries - 1` waits `Math.pow(2, attempt) * 1000` milliseconds
and emits a `retry` event with `attempt + 1` before the next attempt; when
the attempts are exhausted, the last error is rethrown.  The outcome of each
underlying script execution is supplied by the oracle `attemptRes`. -/
def executeScriptLoop {α : Type} (attemptRes : Nat → Except String α) :
    (fuel : Nat) → (attempt : Nat) → (lastErr : Option String) →
      Except String α × List RetryEvent
  | 0, _, lastErr => (.error (lastErr.getD "undefined"), [])
  | fuel + 1, attempt, _ =>
    match attemptRes attempt with
    | .ok v => (.ok v, [])
    | .error e =>
      if fuel = 0 then (.error e, [])
      else
        let rest := executeScriptLoop attemptRes fuel (attempt + 1) (some e)
        (rest.1, ⟨2 ^ attempt * 1000, attempt + 1⟩ :: rest.2)

/-- `GoogleDriveManager._executePythonScript` with an explicit retry bound
(`options.maxRetries || 2` in the source, so the default is 2). -/
def executePythonScript {α : Type} (attemptRes : Nat → Except String α)
    (maxRetries : Nat) : Except String α × List RetryEvent :=
  executeScriptLoop attemptRes maxRetries 0 none

/-- A concrete script-outcome oracle that fails on attempt 0 and succeeds on
every later attempt. -/
def retryResEx : Nat → Except String Nat :=
  fun n => if n = 0 then .error "boom" else .ok 7

end GoogleDriveManager


deriving instance DecidableEq for Except

namespace ModelManager

/-- One manifest entry of the registry (`this.config.models[name]` in the
source); fields absent from the JavaScript object are `none`.  The opaque
`info` blob returned by `showModel` is modelled by an identifier. -/
structure ModelEntry where
  source : String
  pulledAt : Option Nat
  trainedAt : Option Nat
  restoredAt : Option Nat
  syncedAt : Option Nat
  synced : Bool
  baseModel : Option String
  trainingId : Option String
  trainingDataPath : Option String
  info : Option Nat
deriving DecidableEq, Repr

/-- The `settings` sub-object; `overwriteModels` absent means falsy. -/
structure Settings where
  overwriteModels : Bool
deriving DecidableEq, Repr

/-- The `gdrive` sub-object of the manifest. -/
structure GdriveConfig where
  authenticated : Bool
  backupFolderId : Option String
  setupAt : Option Nat
deriving DecidableEq, Repr

/-- The whole manifest, `{models, settings, gdrive}`.  The model map is an
association list with unique keys, in JavaScript object insertion order. -/
structure Config where
  models : List (String × ModelEntry)
  settings : Settings
  gdrive : GdriveConfig
deriving DecidableEq, Repr

/-- The fallback manifest `{models: {}, settings: {}, gdrive: {}}` returned
by `_loadConfig` when the file is absent or unreadable. -/
def emptyConfig : Config :=
  { models := [],
    settings := { overwriteModels := false },
    gdrive := { authenticated := false, backupFolderId := none, setupAt := none } }

/-- Contents of the persisted manifest file: either a manifest that
`JSON.parse` accepts, or bytes that fail to parse. -/
inductive ConfigFile where
  | good (c : Config)
  | corrupt
deriving DecidableEq, Repr

/-- The parts of the filesystem the registry reads and writes: the set of
model artifact directories under `modelPath` (stored in sanitized directory
name form), the training artifact directories under `trainingPath`, the
existing training-data files, the manifest file, and the Google Drive token
file. -/
structure Fs where
  modelDirs : List String
  trainingDirs : List String
  dataFiles : List String
  configFile : Option ConfigFile
  tokenFileExists : Bool
deriving DecidableEq, Repr

/-- The named notifications emitted on the `ModelManager` and
`GoogleDriveManager` event emitters, merged into a single ordered log. -/
inductive Event where
  | pullStart (model : String)
  | pullSkipped (model : String)
  | pullComplete (model : String)
  | pullError (model : String) (msg : String)
  | warning (msg : String)
  | mgrError (tag : String) (msg : String)
  | syncStart (direction : String)
  | syncComplete (direction : String)
  | trainingStart (model output : String)
  | trainingComplete (model output tid : String)
  | modelDeleted (model : String)
  | gdriveSetupStart
  | gdriveSetupComplete (folderId : String)
  | gdriveAuthenticated
  | gdriveSyncStatus (stage : String)
  | gdriveSyncComplete
  | gdriveUploadProgress
  | gdriveDownloadProgress
  | gdriveError (tag : String) (msg : String)
  | gdriveRetry (attempt : Nat) (delayMs : Nat)
deriving DecidableEq, Repr

/-- The failure-report events: the `error` events of `ModelManager` and
`GoogleDriveManager` and the `pull-error` event `ModelManager.pullModel`
emits in place of an `error` event. -/
def isErrorEvent : Event → Bool
  | .mgrError _ _ => true
  | .gdriveError _ _ => true
  | .pullError _ _ => true
  | _ => false

/-- A `ModelManager` instance: its view of the filesystem, the in-memory
manifest, the emitted event log, and the clock-observation counter. -/
structure St where
  fs : Fs
  config : Config
  events : List Event
  tick : Nat
deriving DecidableEq, Repr

def emit (s : St) (e : Event) : St := { s with events := s.events ++ [e] }

def emits (s : St) (es : List Event) : St := { s with events := s.events ++ es }

/-- One `Date.now()` / `new Date()` observation against the clock oracle. -/
def now (clock : Nat → Nat) (s : St) : Nat × St :=
  (clock s.tick, { s with tick := s.tick + 1 })

def getEntry (k : String) : List (String × ModelEntry) → Option ModelEntry
  | [] => none
  | (k2, v) :: rest => if k2 = k then some v else getEntry k rest

def setEntry (k : String) (v : ModelEntry) :
    List (String × ModelEntry) → List (String × ModelEntry)
  | [] => [(k, v)]
  | (k2, v2) :: rest =>
    if k2 = k then (k, v) :: rest else (k2, v2) :: setEntry k v rest

def removeEntry (k : String) :
    List (String × ModelEntry) → List (String × ModelEntry)
  | [] => []
  | (k2, v2) :: rest => if k2 = k then rest else (k2, v2) :: removeEntry k rest

/-- Replace the first occurrence of a character, the JavaScript
`modelName.replace(':', '_')` (a string pattern replaces only the first
match). -/
def replaceFirst (a b : Char) : List Char → List Char
  | [] => []
  | c :: cs => if c = a then b :: cs else c :: replaceFirst a b cs

/-- The directory name used for a model, `modelName.replace(':', '_')`. -/
def sanitizeName (m : String) : String := ⟨replaceFirst ':' '_' m.data⟩

/-- The inverse scan mapping of `_scanLocalModels`,
`entry.replace(/_/g, ':')` (a global regex replaces every match). -/
def desanitizeName (m : String) : String :=
  ⟨m.data.map (fun c => if c = '_' then ':' else c)⟩

/-- `OllamaClient.modelExists`: a pure filesystem predicate on the sanitized
model directory, never a remote query. -/
def modelExists (fs : Fs) (m : String) : Bool :=
  fs.modelDirs.contains (sanitizeName m)

/-- `ModelManager._loadConfig`: parse the manifest file if it exists; on a
parse failure emit a `warning` and fall back to the empty manifest.  The
function is total: construction never raises. -/
def loadConfig (fs : Fs) : Config × List Event :=
  match fs.configFile with
  | some (.good c) => (c, [])
  | some .corrupt => (emptyConfig, [.warning "Failed to load config"])
  | none => (emptyConfig, [])

/-- Constructing a `ModelManager` over a filesystem state. -/
def mkManager (fs : Fs) : St :=
  { fs := fs, config := (loadConfig fs).1, events := (loadConfig fs).2, tick := 0 }

/-- `ModelManager._saveConfig`: serialize the whole in-memory manifest over
the manifest file. -/
def saveConfig (s : St) : St :=
  { s with fs := { s.fs with configFile := some (.good s.config) } }

/-- Little-endian decimal digit characters of a positive number, with
explicit fuel (`fuel ≥ n` suffices since `n / 10` shrinks). -/
def natCharsAux : Nat → Nat → List Char
  | 0, _ => []
  | fuel + 1, n =>
    if n = 0 then [] else Nat.digitChar (n % 10) :: natCharsAux fuel (n / 10)

/-- The JavaScript decimal rendering of a natural number
(template-literal interpolation of `Date.now()`). -/
def natToString (n : Nat) : String :=
  if n = 0 then "0" else ⟨(natCharsAux n n).reverse⟩

/-- The training run identifier, the backtick template of the source gluing
the output name and the `Date.now()` timestamp with an underscore. -/
def mkTrainingId (outputName : String) (t : Nat) : String :=
  outputName ++ "_" ++ natToString t

/-- New manifest entry written by a completed pull. -/
def ollamaEntry (t : Nat) (info : Nat) : ModelEntry :=
  { source := "ollama", pulledAt := some t, trainedAt := none,
    restoredAt := none, syncedAt := none, synced := false, baseModel := none,
    trainingId := none, trainingDataPath := none, info := some info }

/-- New manifest entry written by a completed training run. -/
def trainedEntry (base dataPath tid : String) (t : Nat) : ModelEntry :=
  { source := "trained", pulledAt := none, trainedAt := some t,
    restoredAt := none, syncedAt := none, synced := false,
    baseModel := some base, trainingId := some tid,
    trainingDataPath := some dataPath, info := none }

/-- New manifest entry written for a restored, previously untracked model. -/
def restoredEntry (t : Nat) : ModelEntry :=
  { source := "restored", pulledAt := none, trainedAt := none,
    restoredAt := some t, syncedAt := none, synced := true, baseModel := none,
    trainingId := none, trainingDataPath := none, info := none }

/-- The resolved value of `ModelManager.pullModel`: either the
`{status: 'skipped', model}` marker or the `{success: true, model}` result
forwarded from the completed transfer. -/
inductive PullOutcome where
  | skipped (model : String)
  | pulled (model : String)
deriving DecidableEq, Repr

/-- `ModelManager.pullModel` over the embedding.  External outcomes are
explicit: `healthy` is the `checkHealth` answer, `pullRes` the streamed pull,
`infoRes` the `showModel` metadata query. -/
def pullModel (clock : Nat → Nat) (healthy : Bool) (pullRes : Except String Unit)
    (infoRes : Except String Nat) (modelName : String) (s : St) :
    Except String PullOutcome × St :=
  let s := emit s (.pullStart modelName)
  if !healthy then
    (.error "Ollama server is not accessible",
     emit s (.pullError modelName "Ollama server is not accessible"))
  else if modelExists s.fs modelName && !s.config.settings.overwriteModels then
    (.ok (.skipped modelName), emit s (.pullSkipped modelName))
  else
    match pullRes with
    | .error e => (.error e, emit s (.pullError modelName e))
    | .ok _ =>
      match infoRes with
      | .error e => (.error e, emit s (.pullError modelName e))
      | .ok info =>
        let t := (now clock s).1
        let s := (now clock s).2
        let s := { s with config :=
          { s.config with models := setEntry modelName (ollamaEntry t info) s.config.models } }
        let s := saveConfig s
        (.ok (.pulled modelName), emit s (.pullComplete modelName))

/-- The update loop of `syncToGoogleDrive`: for each manifest key set
`synced = true` and `syncedAt = new Date().toISOString()` — one fresh clock
observation per entry, exactly as the source constructs one `Date` per
iteration. -/
def markSynced (clock : Nat → Nat) :
    Nat → List (String × ModelEntry) → List (String × ModelEntry) × Nat
  | tick, [] => ([], tick)
  | tick, (k, v) :: rest =>
    let v2 := { v with synced := true, syncedAt := some (clock tick) }
    let r := markSynced clock (tick + 1) rest
    ((k, v2) :: r.1, r.2)

/-- `GoogleDriveManager.syncModels` with `direction = 'upload'` as invoked by
`syncToGoogleDrive`: emit the stage event, run the generated upload script
through the retry wrapper, and on failure emit the cloud layer's own
`sync_failed` error event before rethrowing. -/
def gdriveSyncUpload (uploadAttempts : Nat → Except String Unit) (s : St) :
    Except String Unit × St :=
  let s := emit s (.gdriveSyncStatus "uploading")
  let ex := GoogleDriveManager.executePythonScript uploadAttempts 2
  let s := emits s (ex.2.map (fun r => .gdriveRetry r.attempt r.delayMs))
  match ex.1 with
  | .error e => (.error e, emit s (.gdriveError "sync_failed" e))
  | .ok _ =>
    let s := emit s .gdriveUploadProgress
    (.ok (), emit s .gdriveSyncComplete)

/-- `ModelManager.syncToGoogleDrive`: authentication and folder checks, the
cloud upload, then marking every manifest entry synced and persisting. -/
def syncToGoogleDrive (clock : Nat → Nat)
    (uploadAttempts : Nat → Except String Unit) (folderArg : Option String)
    (s : St) : Except String Unit × St :=
  let s := emit s (.syncStart "upload")
  if !s.fs.tokenFileExists then
    let e := "Not authenticated with Google Drive. Run setup first."
    (.error e, emit s (.mgrError "sync_to_gdrive" e))
  else
    let folderId := match folderArg with
      | some f => f
      | none => s.config.gdrive.backupFolderId.getD ""
    if folderId = "" then
      let e := "No Google Drive folder configured"
      (.error e, emit s (.mgrError "sync_to_gdrive" e))
    else
      let r := gdriveSyncUpload uploadAttempts s
      match r.1 with
      | .error e => (.error e, emit r.2 (.mgrError "sync_to_gdrive" e))
      | .ok _ =>
        let s := r.2
        let ms := markSynced clock s.tick s.config.models
        let s := { s with config := { s.config with models := ms.1 }, tick := ms.2 }
        let s := saveConfig s
        (.ok (), emit s (.syncComplete "upload"))

/-- `ModelManager._scanLocalModels`: every directory name under `modelPath`,
underscores globally replaced by colons. -/
def scanLocalModels (fs : Fs) : List String := fs.modelDirs.map desanitizeName

/-- The restore loop of `restoreFromGoogleDrive`: insert a `restored` entry
(with a fresh timestamp observation) for every scanned model that is not
already tracked. -/
def insertRestored (clock : Nat → Nat) :
    Nat → List String → List (String × ModelEntry) →
      List (String × ModelEntry) × Nat
  | tick, [], ms => (ms, tick)
  | tick, m :: rest, ms =>
    match getEntry m ms with
    | some _ => insertRestored clock tick rest ms
    | none =>
      insertRestored clock (tick + 1) rest (setEntry m (restoredEntry (clock tick)) ms)

/-- `ModelManager.restoreFromGoogleDrive`: download through the retry
wrapper (`downloadedDirs` are the new model directories the download script
creates), then scan and insert untracked models, then persist. -/
def restoreFromGoogleDrive (clock : Nat → Nat)
    (downloadAttempts : Nat → Except String Unit) (downloadedDirs : List String)
    (s : St) : Except String Unit × St :=
  let s := emit s (.syncStart "download")
  if !s.fs.tokenFileExists then
    let e := "Not authenticated with Google Drive"
    (.error e, emit s (.mgrError "restore_from_gdrive" e))
  else
    let ex := GoogleDriveManager.executePythonScript downloadAttempts 2
    let s := emits s (ex.2.map (fun r => .gdriveRetry r.attempt r.delayMs))
    match ex.1 with
    | .error e => (.error e, emit s (.mgrError "restore_from_gdrive" e))
    | .ok _ =>
      let s := emit s .gdriveDownloadProgress
      let s := { s with fs := { s.fs with modelDirs :=
        s.fs.modelDirs ++ downloadedDirs.filter (fun d => !s.fs.modelDirs.contains d) } }
      let ir := insertRestored clock s.tick (scanLocalModels s.fs) s.config.models
      let s := { s with config := { s.config with models := ir.1 }, tick := ir.2 }
      let s := saveConfig s
      (.ok (), emit s (.syncComplete "download"))

/-- The resolved value of `trainModel`, `{success, trainingId, outputName}`. -/
structure TrainResult where
  success : Bool
  trainingId : String
  outputName : String
deriving DecidableEq, Repr

/-- `ModelManager.trainModel`: training-data existence check, health check,
allocation of `trainingId` from `Date.now()`, creation of the training
artifact directory, and insertion of the `trained` manifest entry (whose
`trainedAt` comes from a second, separate `new Date()` observation). -/
def trainModel (clock : Nat → Nat) (healthy : Bool)
    (modelName trainingData outputName : String) (s : St) :
    Except String TrainResult × St :=
  let s := emit s (.trainingStart modelName outputName)
  if !s.fs.dataFiles.contains trainingData then
    let e := "Training data not found: " ++ trainingData
    (.error e, emit s (.mgrError "training_failed" e))
  else if !healthy then
    let e := "Ollama server required for training"
    (.error e, emit s (.mgrError "training_failed" e))
  else
    let t1 := (now clock s).1
    let s := (now clock s).2
    let tid := mkTrainingId outputName t1
    let s := { s with fs := { s.fs with trainingDirs := s.fs.trainingDirs ++ [tid] } }
    let t2 := (now clock s).1
    let s := (now clock s).2
    let s := { s with config := { s.config with
      models := setEntry outputName (trainedEntry modelName trainingData tid t2) s.config.models } }
    let s := saveConfig s
    (.ok ⟨true, tid, outputName⟩, emit s (.trainingComplete modelName outputName tid))

/-- The resolved value of `deleteModel`, `{success: true, model}`. -/
structure DeleteResult where
  success : Bool
  model : String
deriving DecidableEq, Repr

/-- `ModelManager.deleteModel`: the local artifact directory and the manifest
entry are removed only when `deleteLocal` is set and the entry exists; the
remote delete is awaited after that removal and before `_saveConfig`, and a
remote failure is rethrown from the catch block after the `delete_failed`
error event. -/
def deleteModel (remoteRes : Except String Unit) (modelName : String)
    (deleteLocal deleteRemote : Bool) (s : St) :
    Except String DeleteResult × St :=
  let s :=
    if deleteLocal && (getEntry modelName s.config.models).isSome then
      let s := { s with fs := { s.fs with
        modelDirs := s.fs.modelDirs.filter (fun d => !(d = sanitizeName modelName)) } }
      { s with config := { s.config with models := removeEntry modelName s.config.models } }
    else s
  if deleteRemote then
    match remoteRes with
    | .error e => (.error e, emit s (.mgrError "delete_failed" e))
    | .ok _ =>
      let s := saveConfig s
      (.ok ⟨true, modelName⟩, emit s (.modelDeleted modelName))
  else
    let s := saveConfig s
    (.ok ⟨true, modelName⟩, emit s (.modelDeleted modelName))

/-- `GoogleDriveManager.createFolder`: one generated script run through the
retry wrapper; the parsed result carries the new folder id. -/
def gdriveCreateFolder (attempts : Nat → Except String String) (s : St) :
    Except String String × St :=
  let ex := GoogleDriveManager.executePythonScript attempts 2
  (ex.1, emits s (ex.2.map (fun r => .gdriveRetry r.attempt r.delayMs)))

/-- Tail of `setupGoogleDrive`: persist the cloud sub-object (authenticated
flag, backup folder id, setup timestamp) and emit completion. -/
def setupFinish (clock : Nat → Nat) (fid : String) (s : St) :
    Except String String × St :=
  let t := (now clock s).1
  let s := (now clock s).2
  let s := { s with config := { s.config with gdrive :=
    { authenticated := true, backupFolderId := some fid, setupAt := some t } } }
  let s := saveConfig s
  (.ok fid, emit s (.gdriveSetupComplete fid))

/-- `ModelManager.setupGoogleDrive`: authenticate (on failure the cloud layer
emits its own `auth_failed` error event before the manager's
`gdrive_setup_failed` one), then create the folder structure when no backup
folder id was supplied, then persist the cloud configuration. -/
def setupGoogleDrive (clock : Nat → Nat) (authRes : Except String Unit)
    (rootAttempts sub1Attempts sub2Attempts sub3Attempts : Nat → Except String String)
    (backupFolderIdArg : Option String) (s : St) : Except String String × St :=
  let s := emit s .gdriveSetupStart
  match authRes with
  | .error e =>
    let msg := "Python authentication failed: " ++ e
    let s := emit s (.gdriveError "auth_failed" msg)
    (.error msg, emit s (.mgrError "gdrive_setup_failed" msg))
  | .ok _ =>
    let s := { s with fs := { s.fs with tokenFileExists := true } }
    let s := emit s .gdriveAuthenticated
    let provided := match backupFolderIdArg with
      | some f => if f = "" then none else some f
      | none => none
    match provided with
    | some fid => setupFinish clock fid s
    | none =>
      let c1 := gdriveCreateFolder rootAttempts s
      match c1.1 with
      | .error e => (.error e, emit c1.2 (.mgrError "gdrive_setup_failed" e))
      | .ok fid =>
        let c2 := gdriveCreateFolder sub1Attempts c1.2
        match c2.1 with
        | .error e => (.error e, emit c2.2 (.mgrError "gdrive_setup_failed" e))
        | .ok _ =>
          let c3 := gdriveCreateFolder sub2Attempts c2.2
          match c3.1 with
          | .error e => (.error e, emit c3.2 (.mgrError "gdrive_setup_failed" e))
          | .ok _ =>
            let c4 := gdriveCreateFolder sub3Attempts c3.2
            match c4.1 with
            | .error e => (.error e, emit c4.2 (.mgrError "gdrive_setup_failed" e))
            | .ok _ => setupFinish clock fid c4.2

/-- Decimal value of a digit character, the inverse of `Nat.digitChar` on
digits 0 through 9. -/
def digitVal (c : Char) : Nat :=
  if c = '0' then 0 else if c = '1' then 1 else if c = '2' then 2
  else if c = '3' then 3 else if c = '4' then 4 else if c = '5' then 5
  else if c = '6' then 6 else if c = '7' then 7 else if c = '8' then 8 else 9

/-- Little-endian decimal evaluation of a digit-character list. -/
def charsVal : List Char → Nat
  | [] => 0
  | c :: rest => digitVal c + 10 * charsVal rest

/-- The reconciliation invariant: the manifest file on disk holds exactly the
in-memory manifest. -/
def diskMatches (s : St) : Prop := s.fs.configFile = some (.good s.config)

instance diskMatchesDecidable (s : St) : Decidable (diskMatches s) :=
  inferInstanceAs (Decidable (s.fs.configFile = some (.good s.config)))

/-- A bare filesystem: no artifacts, no manifest file, no token. -/
def fsEmpty : Fs :=
  { modelDirs := [], trainingDirs := [], dataFiles := [], configFile := none,
    tokenFileExists := false }

/-- A filesystem on which the local artifact directory for model `m`
already exists. -/
def pullFsWithDir : Fs :=
  { modelDirs := ["m"], trainingDirs := [], dataFiles := [], configFile := none,
    tokenFileExists := false }

/-- The state after a first successful pull of "m" over an empty filesystem. -/
def pullTwiceFirst : St :=
  (pullModel (fun n => n) true (.ok ()) (.ok 0) "m" (mkManager fsEmpty)).2

/-- The second pull of "m", immediately after the first. -/
def pullTwiceSecond : Except String PullOutcome × St :=
  pullModel (fun n => n) true (.ok ()) (.ok 0) "m" pullTwiceFirst

/-- A manifest with two unsynced pulled entries and a configured backup
folder. -/
def syncCfg : Config :=
  { models := [("a", ollamaEntry 0 0), ("b", ollamaEntry 0 1)],
    settings := { overwriteModels := false },
    gdrive := { authenticated := true, backupFolderId := some "folder",
                setupAt := none } }

def syncFs : Fs :=
  { modelDirs := [], trainingDirs := [], dataFiles := ["data.txt"],
    configFile := some (.good syncCfg), tokenFileExists := true }

def syncSt : St := mkManager syncFs

def syncRun : Except String Unit × St :=
  syncToGoogleDrive (fun n => n) (fun _ => .ok ()) (some "folder") syncSt

/-- A manifest tracking one entry, consistent with its on-disk file. -/
def delCfg : Config :=
  { models := [("m", ollamaEntry 0 0)],
    settings := { overwriteModels := false },
    gdrive := { authenticated := false, backupFolderId := none, setupAt := none } }

def delFs : Fs :=
  { modelDirs := ["m"], trainingDirs := [], dataFiles := [],
    configFile := some (.good delCfg), tokenFileExists := false }

def delSt : St := mkManager delFs

def delRun : Except String DeleteResult × St :=
  deleteModel (.error "Failed to delete model: HTTP 500") "m" true true delSt

def syncFailFs : Fs :=
  { modelDirs := [], trainingDirs := [], dataFiles := [], configFile := none,
    tokenFileExists := true }

def syncFailSt : St := mkManager syncFailFs

def syncFailRun : Except String Unit × St :=
  syncToGoogleDrive (fun n => n) (fun _ => .error "upload failed") (some "f")
    syncFailSt

def trainFs : Fs :=
  { modelDirs := [], trainingDirs := [], dataFiles := ["d"], configFile := none,
    tokenFileExists := false }

def trainSt : St := mkManager trainFs

def trainRun1 : Except String TrainResult × St :=
  trainModel (fun _ => 5) true "base" "d" "out" trainSt

def trainRun2 : Except String TrainResult × St :=
  trainModel (fun _ => 5) true "base" "d" "out" trainRun1.2

/-- A filesystem whose manifest file exists but fails to parse. -/
def corruptFs : Fs :=
  { modelDirs := [], trainingDirs := [], dataFiles := ["d"],
    configFile := some .corrupt, tokenFileExists := false }

/-- A filesystem with an artifact directory "x" that the manifest does not
track. -/
def untrackedFs : Fs :=
  { modelDirs := ["x"], trainingDirs := [], dataFiles := [],
    configFile := some (.good emptyConfig), tokenFileExists := false }

end ModelManager

/-! ## Theorems -/

namespace OllamaStream

theorem consHead_cons (c : Char) (h : List Char) (t : List (List Char)) :
    consHead c (h :: t) = (c :: h) :: t := rfl

theorem splitNl_ne_nil (s : List Char) : splitNl s ≠ [] := by
  cases s with
  | nil => simp [splitNl]
  | cons c cs =>
    simp only [splitNl]
    split
    · simp
    · cases hL : splitNl cs <;> simp [consHead]

theorem getLastD_irrel {α : Type} (L : List α) (hL : L ≠ []) (d e : α) :
    L.getLastD d = L.getLastD e := by
  cases L with
  | nil => exact absurd rfl hL
  | cons h t => rfl

theorem nlFree_cons {c : Char} {l : List Char} (hc : ¬ c = '\n')
    (hl : nlFree l) : nlFree (c :: l) := by
  intro hm
  rcases List.mem_cons.mp hm with h1 | h2
  · exact hc h1.symm
  · exact hl h2

theorem splitNl_of_nlFree (l : List Char) (h : nlFree l) :
    splitNl l = [l] := by
  induction l with
  | nil => simp [splitNl]
  | cons c cs ih =>
    have hc : ¬ (c = '\n') := fun hEq => h (hEq ▸ List.mem_cons_self c cs)
    have hcs : nlFree cs := fun hm => h (List.mem_cons_of_mem _ hm)
    simp only [splitNl, if_neg hc, ih hcs, consHead_cons]

theorem nlFree_getLastD_splitNl (s : List Char) :
    nlFree ((splitNl s).getLastD []) := by
  induction s with
  | nil => simp [splitNl, nlFree]
  | cons c cs ih =>
    simp only [splitNl]
    split
    · rcases hL : splitNl cs with _ | ⟨h, t⟩
      · exact absurd hL (splitNl_ne_nil cs)
      · rw [hL] at ih
        simpa only [List.getLastD_cons] using ih
    · rcases hL : splitNl cs with _ | ⟨h, t⟩
      · exact absurd hL (splitNl_ne_nil cs)
      · rw [hL] at ih
        rename_i hc
        rw [consHead_cons]
        cases t with
        | nil =>
          simp only [List.getLastD_cons, List.getLastD_nil] at ih ⊢
          exact nlFree_cons hc ih
        | cons h2 t2 =>
          simpa only [List.getLastD_cons] using ih

/-- The key append law for the newline split: splitting `a ++ b` yields all
complete pieces of `a` followed by the split of the last (incomplete) piece of
`a` glued onto `b`.  This is exactly the invariant the streaming parser in
`pullModel` relies on when it carries `buffer = lines[lines.length - 1]` over
to the next chunk. -/
theorem splitNl_append (a b : List Char) :
    splitNl (a ++ b) =
      (splitNl a).dropLast ++ splitNl ((splitNl a).getLastD [] ++ b) := by
  induction a with
  | nil => simp [splitNl]
  | cons c a ih =>
    by_cases hc : c = '\n'
    · subst hc
      rcases hL : splitNl a with _ | ⟨h, t⟩
      · exact absurd hL (splitNl_ne_nil a)
      · rw [hL] at ih
        rw [List.cons_append]
        rw [show splitNl ('\n' :: (a ++ b)) = [] :: splitNl (a ++ b) by
          simp [splitNl]]
        rw [show splitNl ('\n' :: a) = [] :: splitNl a by simp [splitNl], hL, ih]
        simp only [List.dropLast_cons_of_ne_nil (List.cons_ne_nil h t),
          List.getLastD_cons, List.cons_append]
    · rcases hL : splitNl a with _ | ⟨h, t⟩
      · exact absurd hL (splitNl_ne_nil a)
      · rw [hL] at ih
        cases t with
        | nil =>
          simp only [List.getLastD_cons, List.getLastD_nil, List.dropLast_single,
            List.nil_append] at ih
          simp only [List.cons_append, splitNl, if_neg hc, hL, List.append_eq, ih,
            consHead_cons, List.dropLast_single, List.nil_append,
            List.getLastD_cons, List.getLastD_nil]
        | cons h2 t2 =>
          simp only [List.getLastD_cons] at ih
          simp only [List.cons_append, splitNl, if_neg hc, hL, List.append_eq, ih,
            consHead_cons, List.dropLast_cons_of_ne_nil (List.cons_ne_nil h2 t2),
            List.getLastD_cons]

theorem getLastD_append {α : Type} (l1 l2 : List α) (h : l2 ≠ []) (d : α) :
    (l1 ++ l2).getLastD d = l2.getLastD d := by
  simp [List.getLastD_eq_getLast?, List.getLast?_append_of_ne_nil _ h]

theorem runChunksAux_eq (cs : List (List Char)) :
    ∀ (acc : List (List Char)) (buf : List Char), nlFree buf →
      runChunksAux cs acc buf =
        (acc ++ (splitNl (buf ++ cs.flatten)).dropLast,
         (splitNl (buf ++ cs.flatten)).getLastD []) := by
  induction cs with
  | nil =>
    intro acc buf hbuf
    simp [runChunksAux, splitNl_of_nlFree buf hbuf]
  | cons chunk cs ih =>
    intro acc buf hbuf
    rw [runChunksAux]
    simp only [feedChunk]
    rw [ih _ _ (nlFree_getLastD_splitNl (buf ++ chunk))]
    have hY := splitNl_ne_nil ((splitNl (buf ++ chunk)).getLastD [] ++ cs.flatten)
    rw [List.flatten_cons, ← List.append_assoc,
      splitNl_append (buf ++ chunk) cs.flatten,
      List.dropLast_append_of_ne_nil _ hY, getLastD_append _ _ hY]
    simp [feedChunk, List.append_assoc]

/-- C5: for every response body and every way of splitting it into a sequence
of chunks, the incremental chunk-by-chunk parser of `OllamaClient.pullModel`
(and `OllamaClient.streamGenerate`) forwards exactly the same sequence of
parsed progress records as feeding the whole body at once: the partial
trailing line is buffered and re-parsed with the next chunk, and no complete
line is dropped or parsed twice. -/
theorem pullModel_stream_chunking_equiv {α : Type}
    (jsonParse : List Char → Option α) (cs : List (List Char)) :
    streamRecords jsonParse cs = streamRecords jsonParse [cs.flatten] := by
  unfold streamRecords runChunks
  rw [runChunksAux_eq cs [] [] (by simp [nlFree]),
    runChunksAux_eq [cs.flatten] [] [] (by simp [nlFree])]
  simp

end OllamaStream

namespace OllamaClient

/-- C4: the claim (and the repository's own fix log) says `pullModel`
resolves with a success marker for every 2xx status, but the source's end
handler accepts only the literal 200: status 201 is in the success class yet
the handler rejects it with a transfer error. -/
theorem pullModel_rejects_http201 :
    isSuccessClass 201 = true ∧
      pullModelEndResult 201 "m" = .error "Failed to pull model: HTTP 201" := by
  constructor
  · rfl
  · rfl

end OllamaClient

namespace GoogleDriveManager

/-- C7: a cloud operation whose script execution fails on the first attempt
and succeeds on the second resolves successfully and emits exactly one retry
advisory (with the backoff delay `2 ^ 0` seconds); moreover under the default
bound of 2 every execution makes at most 2 attempts (at most one retry) and
every retry advisory carries the delay `2 ^ attempt` seconds for the 0-based
index `attempt` of the attempt that failed. -/
theorem executePythonScript_retry_once (attemptRes : Nat → Except String Nat)
    (e : String) (v : Nat)
    (h0 : attemptRes 0 = .error e) (h1 : attemptRes 1 = .ok v) :
    executePythonScript attemptRes 2 = (.ok v, [⟨1000, 1⟩]) ∧
      ∀ res : Nat → Except String Nat,
        (executePythonScript res 2).2.length ≤ 1 ∧
          ∀ ev ∈ (executePythonScript res 2).2,
            1 ≤ ev.attempt ∧ ev.delayMs = 2 ^ (ev.attempt - 1) * 1000 := by
  constructor
  · simp [executePythonScript, executeScriptLoop, h0, h1]
  · intro res
    rcases hr0 : res 0 with e0 | v0 <;> rcases hr1 : res 1 with e1 | v1 <;>
      simp [executePythonScript, executeScriptLoop, hr0, hr1]

theorem executePythonScript_retry_once_witness :
    executePythonScript retryResEx 2 = (.ok 7, [⟨1000, 1⟩]) :=
  (executePythonScript_retry_once retryResEx "boom" 7 rfl rfl).1

end GoogleDriveManager

namespace ModelManager

theorem digitVal_digitChar : ∀ k, k < 10 → digitVal (Nat.digitChar k) = k := by
  decide

theorem charsVal_natCharsAux :
    ∀ (fuel n : Nat), n ≤ fuel → charsVal (natCharsAux fuel n) = n := by
  intro fuel
  induction fuel with
  | zero =>
    intro n hn
    interval_cases n
    simp [natCharsAux, charsVal]
  | succ fuel ih =>
    intro n hn
    by_cases h0 : n = 0
    · simp [natCharsAux, h0, charsVal]
    · have hdiv : n / 10 ≤ fuel := by
        have h1 : n / 10 < n := Nat.div_lt_self (Nat.pos_of_ne_zero h0) (by norm_num)
        omega
      simp only [natCharsAux, if_neg h0, charsVal, ih _ hdiv,
        digitVal_digitChar _ (Nat.mod_lt n (by norm_num))]
      exact Nat.mod_add_div n 10

theorem natToString_inj {a b : Nat} (h : natToString a = natToString b) :
    a = b := by
  have hdata := congrArg String.data h
  by_cases ha : a = 0 <;> by_cases hb : b = 0
  · exact ha.trans hb.symm
  · exfalso
    simp only [natToString, if_pos ha, if_neg hb] at hdata
    have hrt : charsVal (natCharsAux b b) = b := charsVal_natCharsAux b b le_rfl
    have h2 : (natCharsAux b b).reverse = ['0'] := hdata.symm
    have h3 : natCharsAux b b = ['0'] := by
      have h4 := congrArg List.reverse h2
      simpa using h4
    rw [h3] at hrt
    simp [charsVal, digitVal] at hrt
    exact hb hrt.symm
  · exfalso
    simp only [natToString, if_pos hb, if_neg ha] at hdata
    have hrt : charsVal (natCharsAux a a) = a := charsVal_natCharsAux a a le_rfl
    have h2 : (natCharsAux a a).reverse = ['0'] := hdata
    have h3 : natCharsAux a a = ['0'] := by
      have h4 := congrArg List.reverse h2
      simpa using h4
    rw [h3] at hrt
    simp [charsVal, digitVal] at hrt
    exact ha hrt.symm
  · simp only [natToString, if_neg ha, if_neg hb] at hdata
    have h3 : natCharsAux a a = natCharsAux b b := by
      have h4 := congrArg List.reverse hdata
      simpa using h4
    have hra : charsVal (natCharsAux a a) = a := charsVal_natCharsAux a a le_rfl
    have hrb : charsVal (natCharsAux b b) = b := charsVal_natCharsAux b b le_rfl
    rw [h3, hrb] at hra
    exact hra.symm

theorem mkTrainingId_inj_t {out : String} {t1 t2 : Nat}
    (h : mkTrainingId out t1 = mkTrainingId out t2) : t1 = t2 := by
  apply natToString_inj
  have hdata := congrArg String.data h
  simp only [mkTrainingId, String.data_append] at hdata
  have h2 := List.append_cancel_left hdata
  cases hs1 : natToString t1 with
  | mk d1 =>
    cases hs2 : natToString t2 with
    | mk d2 =>
      rw [hs1, hs2] at h2
      simp only [] at h2
      exact congrArg String.mk h2

theorem getEntry_setEntry_self (k : String) (v : ModelEntry) :
    ∀ ms, getEntry k (setEntry k v ms) = some v := by
  intro ms
  induction ms with
  | nil => simp [setEntry, getEntry]
  | cons p rest ih =>
    rcases p with ⟨k2, v2⟩
    by_cases hk : k2 = k
    · simp [setEntry, hk, getEntry]
    · simp [setEntry, hk, getEntry, ih]

theorem getEntry_setEntry_ne (k k2 : String) (v : ModelEntry) (hne : ¬ k = k2) :
    ∀ ms, getEntry k2 (setEntry k v ms) = getEntry k2 ms := by
  intro ms
  induction ms with
  | nil => simp [setEntry, getEntry, hne]
  | cons p rest ih =>
    rcases p with ⟨k3, v3⟩
    by_cases hk : k3 = k
    · subst hk
      simp [setEntry, getEntry, hne]
    · simp [setEntry, hk, getEntry, ih]

theorem getEntry_markSynced (clock : Nat → Nat) :
    ∀ (ms : List (String × ModelEntry)) (tick : Nat) (k : String)
      (v2 : ModelEntry),
      getEntry k (markSynced clock tick ms).1 = some v2 →
      ∃ v i, getEntry k ms = some v ∧
        v2 = { v with synced := true, syncedAt := some (clock i) } := by
  intro ms
  induction ms with
  | nil =>
    intro tick k v2 h
    simp [markSynced, getEntry] at h
  | cons p rest ih =>
    rcases p with ⟨k1, v1⟩
    intro tick k v2 h
    simp only [markSynced, getEntry] at h
    by_cases hk : k1 = k
    · rw [if_pos hk] at h
      exact ⟨v1, tick, by simp [getEntry, hk], (Option.some_inj.mp h).symm⟩
    · rw [if_neg hk] at h
      obtain ⟨v, i, hv, heq⟩ := ih (tick + 1) k v2 h
      exact ⟨v, i, by simp [getEntry, hk, hv], heq⟩

theorem getEntry_markSynced_none (clock : Nat → Nat) :
    ∀ (ms : List (String × ModelEntry)) (tick : Nat) (k : String),
      getEntry k ms = none → getEntry k (markSynced clock tick ms).1 = none := by
  intro ms
  induction ms with
  | nil => intro tick k _; simp [markSynced, getEntry]
  | cons p rest ih =>
    rcases p with ⟨k1, v1⟩
    intro tick k h
    simp only [getEntry] at h
    by_cases hk : k1 = k
    · rw [if_pos hk] at h
      exact absurd h (by simp)
    · rw [if_neg hk] at h
      simp only [markSynced, getEntry, if_neg hk]
      exact ih (tick + 1) k h

theorem diskMatches_emit (s : St) (e : Event) :
    diskMatches (emit s e) ↔ diskMatches s := by
  simp [diskMatches, emit]

theorem diskMatches_emits (s : St) (es : List Event) :
    diskMatches (emits s es) ↔ diskMatches s := by
  simp [diskMatches, emits]

theorem diskMatches_saveConfig (s : St) : diskMatches (saveConfig s) := by
  simp [diskMatches, saveConfig]

/-- The success path of `syncToGoogleDrive`: authenticated, folder resolved,
upload succeeded.  The operation resolves and the stored manifest is the
`markSynced` rewrite of the previous one, started at the current clock
observation counter. -/
theorem syncToGoogleDrive_success (clock : Nat → Nat)
    (up : Nat → Except String Unit) (fa : Option String) (s : St)
    (htoken : s.fs.tokenFileExists = true)
    (hfolder : ¬ ((match fa with
      | some f => f
      | none => s.config.gdrive.backupFolderId.getD "") = ""))
    (hupload : (GoogleDriveManager.executePythonScript up 2).1 = .ok ()) :
    (syncToGoogleDrive clock up fa s).1 = .ok () ∧
    (syncToGoogleDrive clock up fa s).2.config.models =
      (markSynced clock s.tick s.config.models).1 ∧
    (syncToGoogleDrive clock up fa s).2.config.settings = s.config.settings ∧
    (syncToGoogleDrive clock up fa s).2.config.gdrive = s.config.gdrive ∧
    (syncToGoogleDrive clock up fa s).2.fs.dataFiles = s.fs.dataFiles ∧
    (syncToGoogleDrive clock up fa s).2.tick =
      (markSynced clock s.tick s.config.models).2 := by
  simp [syncToGoogleDrive, gdriveSyncUpload, emit, emits, saveConfig, htoken,
    hfolder, hupload]

/-- The success path of `trainModel`: training data present and server
healthy.  The result carries `trainingId = mkTrainingId out (clock tick)`
from the first clock observation; the stored entry's `trainedAt` comes from
the second one; the whole manifest is flushed to disk. -/
theorem trainModel_success (clock : Nat → Nat) (base data out : String)
    (s : St) (hdata : s.fs.dataFiles.contains data = true) :
    (trainModel clock true base data out s).1 =
      .ok ⟨true, mkTrainingId out (clock s.tick), out⟩ ∧
    (trainModel clock true base data out s).2.config.models =
      setEntry out
        (trainedEntry base data (mkTrainingId out (clock s.tick)) (clock (s.tick + 1)))
        s.config.models ∧
    (trainModel clock true base data out s).2.fs.configFile =
      some (.good (trainModel clock true base data out s).2.config) ∧
    (trainModel clock true base data out s).2.fs.dataFiles = s.fs.dataFiles ∧
    (trainModel clock true base data out s).2.tick = s.tick + 2 := by
  have hmem : data ∈ s.fs.dataFiles := by simpa using hdata
  simp [trainModel, hmem, now, emit, saveConfig]

/-- C3 (amended): every registry operation re-persists the whole manifest
after mutating it, so the in-memory manifest equals the on-disk manifest when
the operation returns — on every resolved and every rejected outcome — except
for `deleteModel` invoked with `deleteLocal = true` on an existing entry and
`deleteRemote = true` when the remote delete fails: there the entry is removed
from the in-memory manifest before the remote call and `_saveConfig` is never
reached, so the exception leaves memory and disk diverged.  The `deleteModel`
conjunct therefore assumes the remote delete succeeds whenever both flags are
set on an existing entry. -/
theorem registry_ops_preserve_manifest_disk_sync :
    (∀ (clock : Nat → Nat) (healthy : Bool) (pullRes : Except String Unit)
       (infoRes : Except String Nat) (m : String) (s : St), diskMatches s →
        diskMatches (pullModel clock healthy pullRes infoRes m s).2) ∧
    (∀ (clock : Nat → Nat) (up : Nat → Except String Unit) (fa : Option String)
       (s : St), diskMatches s →
        diskMatches (syncToGoogleDrive clock up fa s).2) ∧
    (∀ (clock : Nat → Nat) (down : Nat → Except String Unit)
       (dirs : List String) (s : St), diskMatches s →
        diskMatches (restoreFromGoogleDrive clock down dirs s).2) ∧
    (∀ (clock : Nat → Nat) (healthy : Bool) (base data out : String) (s : St),
        diskMatches s → diskMatches (trainModel clock healthy base data out s).2) ∧
    (∀ (clock : Nat → Nat) (authRes : Except String Unit)
       (r1 r2 r3 r4 : Nat → Except String String) (fid : Option String) (s : St),
        diskMatches s →
        diskMatches (setupGoogleDrive clock authRes r1 r2 r3 r4 fid s).2) ∧
    (∀ (rr : Except String Unit) (m : String) (dl dr : Bool) (s : St),
        diskMatches s →
        (dr = true → dl = true → (getEntry m s.config.models).isSome = true →
          ∃ u, rr = .ok u) →
        diskMatches (deleteModel rr m dl dr s).2) := by
  refine ⟨?_, ?_, ?_, ?_, ?_, ?_⟩
  · intro clock healthy pullRes infoRes m s hs
    cases healthy with
    | false => simpa [pullModel, diskMatches, emit] using hs
    | true =>
      by_cases hex : (modelExists s.fs m && !s.config.settings.overwriteModels) = true
      · simpa [pullModel, hex, diskMatches, emit] using hs
      · rcases pullRes with e | u
        · simpa [pullModel, hex, diskMatches, emit] using hs
        · rcases infoRes with e | info
          · simpa [pullModel, hex, diskMatches, emit] using hs
          · simp [pullModel, hex, diskMatches, emit, saveConfig, now]
  · intro clock up fa s hs
    by_cases htoken : s.fs.tokenFileExists = true
    · by_cases hfolder : ((match fa with
        | some f => f
        | none => s.config.gdrive.backupFolderId.getD "") = "")
      · simpa [syncToGoogleDrive, htoken, hfolder, diskMatches, emit] using hs
      · rcases hup : (GoogleDriveManager.executePythonScript up 2).1 with e | u
        · simpa [syncToGoogleDrive, gdriveSyncUpload, htoken, hfolder, hup,
            diskMatches, emit, emits] using hs
        · simp [syncToGoogleDrive, gdriveSyncUpload, htoken, hfolder, hup,
            diskMatches, emit, emits, saveConfig]
    · have htf : s.fs.tokenFileExists = false := by
        cases h : s.fs.tokenFileExists
        · rfl
        · exact absurd h htoken
      simpa [syncToGoogleDrive, htf, diskMatches, emit] using hs
  · intro clock down dirs s hs
    by_cases htoken : s.fs.tokenFileExists = true
    · rcases hdl : (GoogleDriveManager.executePythonScript down 2).1 with e | u
      · simpa [restoreFromGoogleDrive, htoken, hdl, diskMatches, emit, emits]
          using hs
      · simp [restoreFromGoogleDrive, htoken, hdl, diskMatches, emit, emits,
          saveConfig]
    · have htf : s.fs.tokenFileExists = false := by
        cases h : s.fs.tokenFileExists
        · rfl
        · exact absurd h htoken
      simpa [restoreFromGoogleDrive, htf, diskMatches, emit] using hs
  · intro clock healthy base data out s hs
    by_cases hdata : data ∈ s.fs.dataFiles
    · cases healthy with
      | false => simpa [trainModel, hdata, diskMatches, emit] using hs
      | true => simp [trainModel, hdata, diskMatches, emit, saveConfig, now]
    · simpa [trainModel, hdata, diskMatches, emit] using hs
  · intro clock authRes r1 r2 r3 r4 fid s hs
    rcases authRes with e | u
    · simpa [setupGoogleDrive, diskMatches, emit] using hs
    · rcases fid with _ | f
      · rcases h1 : (GoogleDriveManager.executePythonScript r1 2).1 with e1 | f1
        · simpa [setupGoogleDrive, gdriveCreateFolder, h1, diskMatches, emit,
            emits] using hs
        · rcases h2 : (GoogleDriveManager.executePythonScript r2 2).1 with e2 | f2
          · simpa [setupGoogleDrive, gdriveCreateFolder, h1, h2, diskMatches,
              emit, emits] using hs
          · rcases h3 : (GoogleDriveManager.executePythonScript r3 2).1 with e3 | f3
            · simpa [setupGoogleDrive, gdriveCreateFolder, h1, h2, h3,
                diskMatches, emit, emits] using hs
            · rcases h4 : (GoogleDriveManager.executePythonScript r4 2).1 with e4 | f4
              · simpa [setupGoogleDrive, gdriveCreateFolder, h1, h2, h3, h4,
                  diskMatches, emit, emits] using hs
              · simp [setupGoogleDrive, gdriveCreateFolder, h1, h2, h3, h4,
                  setupFinish, diskMatches, emit, emits, saveConfig, now]
      · by_cases hempty : f = ""
        · rcases h1 : (GoogleDriveManager.executePythonScript r1 2).1 with e1 | f1
          · simpa [setupGoogleDrive, gdriveCreateFolder, hempty, h1, diskMatches,
              emit, emits] using hs
          · rcases h2 : (GoogleDriveManager.executePythonScript r2 2).1 with e2 | f2
            · simpa [setupGoogleDrive, gdriveCreateFolder, hempty, h1, h2,
                diskMatches, emit, emits] using hs
            · rcases h3 : (GoogleDriveManager.executePythonScript r3 2).1 with e3 | f3
              · simpa [setupGoogleDrive, gdriveCreateFolder, hempty, h1, h2, h3,
                  diskMatches, emit, emits] using hs
              · rcases h4 : (GoogleDriveManager.executePythonScript r4 2).1 with e4 | f4
                · simpa [setupGoogleDrive, gdriveCreateFolder, hempty, h1, h2,
                    h3, h4, diskMatches, emit, emits] using hs
                · simp [setupGoogleDrive, gdriveCreateFolder, hempty, h1, h2,
                    h3, h4, setupFinish, diskMatches, emit, emits, saveConfig, now]
        · simp [setupGoogleDrive, hempty, setupFinish, diskMatches, emit,
            saveConfig, now]
  · intro rr m dl dr s hs hok
    cases dr with
    | false =>
      cases dl with
      | false => simp [deleteModel, diskMatches, emit, saveConfig]
      | true =>
        by_cases hp : (getEntry m s.config.models).isSome = true
        · simp [deleteModel, hp, diskMatches, emit, saveConfig]
        · simp [deleteModel, hp, diskMatches, emit, saveConfig]
    | true =>
      rcases hr : rr with e | u
      · cases dl with
        | false => simpa [deleteModel, hr, diskMatches, emit] using hs
        | true =>
          by_cases hp : (getEntry m s.config.models).isSome = true
          · obtain ⟨u, hu⟩ := hok rfl rfl hp
            rw [hr] at hu
            exact absurd hu (by simp)
          · simpa [deleteModel, hr, hp, diskMatches, emit] using hs
      · cases dl with
        | false => simp [deleteModel, hr, diskMatches, emit, saveConfig]
        | true =>
          by_cases hp : (getEntry m s.config.models).isSome = true
          · simp [deleteModel, hr, hp, diskMatches, emit, saveConfig]
          · simp [deleteModel, hr, hp, diskMatches, emit, saveConfig]

/-- C1 (amended): a `pullModel` call that finds the model's local artifact
directory present (with `overwriteModels` unset and the endpoint healthy)
returns the skipped marker and leaves the manifest — in particular every
entry's timestamps — and the filesystem untouched.  The amendment against the
original claim: `modelExists` is a pure filesystem predicate that a pull never
makes true, so the second of two pulls is skipped only when that directory
exists independently of the first pull (see the counterexample). -/
theorem pullModel_skipped_when_dir_exists (clock : Nat → Nat)
    (pullRes : Except String Unit) (infoRes : Except String Nat) (m : String)
    (s : St) (hdir : modelExists s.fs m = true)
    (hover : s.config.settings.overwriteModels = false) :
    (pullModel clock true pullRes infoRes m s).1 = .ok (.skipped m) ∧
    (pullModel clock true pullRes infoRes m s).2.config = s.config ∧
    (pullModel clock true pullRes infoRes m s).2.fs = s.fs := by
  simp [pullModel, hdir, hover, emit]

theorem pullModel_skipped_when_dir_exists_witness :
    (pullModel (fun n => n) true (.ok ()) (.ok 0) "m" (mkManager pullFsWithDir)).1 =
      .ok (.skipped "m") :=
  (pullModel_skipped_when_dir_exists (fun n => n) (.ok ()) (.ok 0) "m"
    (mkManager pullFsWithDir) (by decide) (by decide)).1

/-- C1 (counterexample): pulling the same model twice in sequence under
default settings does not skip the second transfer — the pull never creates
the local directory `modelExists` checks — and the second call overwrites the
entry with a fresh `pulledAt` timestamp. -/
theorem pullModel_twice_counterexample :
    pullTwiceSecond.1 = .ok (.pulled "m") ∧
    ¬ pullTwiceSecond.1 = .ok (.skipped "m") ∧
    getEntry "m" pullTwiceFirst.config.models = some (ollamaEntry 0 0) ∧
    getEntry "m" pullTwiceSecond.2.config.models = some (ollamaEntry 1 0) := by
  decide

/-- C2 (counterexample): a successful sync sets `syncedAt` from a separate
`new Date()` per loop iteration, so with a clock that advances between the
two iterations the two entries end with different `syncedAt` values, not one
shared timestamp. -/
theorem syncedAt_not_shared_counterexample :
    syncRun.1 = .ok () ∧
    (getEntry "a" syncRun.2.config.models).map (fun v => v.syncedAt) =
      some (some 0) ∧
    (getEntry "b" syncRun.2.config.models).map (fun v => v.syncedAt) =
      some (some 1) := by
  decide

/-- C2 (amended): after a successful `syncToGoogleDrive` every manifest entry
has `synced = true` and a `syncedAt` drawn from the clock observation of its
own loop iteration — one shared value exactly when the clock does not advance
across the loop (for example a constant clock) — and a subsequent successful
`trainModel` stores an entry with `synced = false` and `source = "trained"`
while every other entry keeps `synced = true`. -/
theorem sync_marks_all_then_train_unsynced (clock clock2 : Nat → Nat)
    (up : Nat → Except String Unit) (fa : Option String) (s : St)
    (base data out : String)
    (htoken : s.fs.tokenFileExists = true)
    (hfolder : ¬ ((match fa with
      | some f => f
      | none => s.config.gdrive.backupFolderId.getD "") = ""))
    (hupload : (GoogleDriveManager.executePythonScript up 2).1 = .ok ())
    (hdata : s.fs.dataFiles.contains data = true) :
    (syncToGoogleDrive clock up fa s).1 = .ok () ∧
    (∀ k v, getEntry k (syncToGoogleDrive clock up fa s).2.config.models = some v →
      v.synced = true ∧ ∃ i, v.syncedAt = some (clock i)) ∧
    (∀ T, (∀ n, clock n = T) →
      ∀ k v, getEntry k (syncToGoogleDrive clock up fa s).2.config.models = some v →
        v.syncedAt = some T) ∧
    (trainModel clock2 true base data out (syncToGoogleDrive clock up fa s).2).1 =
      .ok ⟨true, mkTrainingId out (clock2 (syncToGoogleDrive clock up fa s).2.tick), out⟩ ∧
    (∀ v, getEntry out
        (trainModel clock2 true base data out (syncToGoogleDrive clock up fa s).2).2.config.models = some v →
      v.synced = false ∧ v.source = "trained") ∧
    (∀ k v, ¬ k = out →
      getEntry k
        (trainModel clock2 true base data out (syncToGoogleDrive clock up fa s).2).2.config.models = some v →
      v.synced = true) := by
  obtain ⟨hs1, hm1, hset1, hgd1, hdf1, htick1⟩ :=
    syncToGoogleDrive_success clock up fa s htoken hfolder hupload
  have hdata1 : (syncToGoogleDrive clock up fa s).2.fs.dataFiles.contains data = true := by
    rw [hdf1]; exact hdata
  obtain ⟨ht1, htm, htc, htdf, httick⟩ :=
    trainModel_success clock2 base data out (syncToGoogleDrive clock up fa s).2 hdata1
  refine ⟨hs1, ?_, ?_, ht1, ?_, ?_⟩
  · intro k v hv
    rw [hm1] at hv
    obtain ⟨v0, i, hv0, heq⟩ := getEntry_markSynced clock _ _ _ _ hv
    subst heq
    exact ⟨rfl, i, rfl⟩
  · intro T hT k v hv
    rw [hm1] at hv
    obtain ⟨v0, i, hv0, heq⟩ := getEntry_markSynced clock _ _ _ _ hv
    subst heq
    simp [hT i]
  · intro v hv
    rw [htm, getEntry_setEntry_self] at hv
    obtain rfl := Option.some_inj.mp hv
    exact ⟨rfl, rfl⟩
  · intro k v hk hv
    rw [htm, getEntry_setEntry_ne out k _ (fun h => hk h.symm)] at hv
    rw [hm1] at hv
    obtain ⟨v0, i, hv0, heq⟩ := getEntry_markSynced clock _ _ _ _ hv
    subst heq
    rfl

theorem sync_marks_all_then_train_unsynced_witness :
    (syncToGoogleDrive (fun n => n) (fun _ => .ok ()) (some "folder") syncSt).1 =
      .ok () :=
  (sync_marks_all_then_train_unsynced (fun n => n) (fun n => n)
    (fun _ => .ok ()) (some "folder") syncSt "a" "data.txt" "tuned"
    (by decide) (by decide) (by decide) (by decide)).1

theorem registry_ops_preserve_manifest_disk_sync_witness :
    diskMatches (pullModel (fun n => n) true (.ok ()) (.ok 0) "m" (mkManager syncFs)).2 :=
  registry_ops_preserve_manifest_disk_sync.1 (fun n => n) true (.ok ()) (.ok 0)
    "m" (mkManager syncFs) (by decide)

/-- C3 (counterexample): `deleteModel("m", true, true)` removes the entry from
the in-memory manifest, then the remote delete rejects before `_saveConfig`
runs, so the operation returns with the in-memory manifest missing "m" while
the disk manifest still holds it. -/
theorem deleteModel_remote_failure_desyncs_manifest :
    diskMatches delSt ∧
    delRun.1 = .error "Failed to delete model: HTTP 500" ∧
    ¬ diskMatches delRun.2 ∧
    getEntry "m" delRun.2.config.models = none ∧
    delRun.2.fs.configFile = some (.good delCfg) := by
  decide

theorem filter_isErrorEvent_retryMap (l : List GoogleDriveManager.RetryEvent) :
    (l.map (fun r => Event.gdriveRetry r.attempt r.delayMs)).filter isErrorEvent = [] := by
  induction l with
  | nil => rfl
  | cons h t ih => simp [isErrorEvent, ih]

/-- C6 (amended): a failing operation is rejected exactly once, and the
registry emits one error event per failure — but `GoogleDriveManager`'s
`syncModels` additionally emits its own `sync_failed` error event before
rethrowing, so a sync failure caused by the cloud client is reported by two
error events in total (one per layer), while a `pullModel` failure is
reported by exactly one (`pull-error`). -/
theorem failure_error_event_counts (clock : Nat → Nat)
    (up : Nat → Except String Unit) (fa : Option String) (s : St) (e : String)
    (htoken : s.fs.tokenFileExists = true)
    (hfolder : ¬ ((match fa with
      | some f => f
      | none => s.config.gdrive.backupFolderId.getD "") = ""))
    (hupload : (GoogleDriveManager.executePythonScript up 2).1 = .error e) :
    (syncToGoogleDrive clock up fa s).1 = .error e ∧
    ((syncToGoogleDrive clock up fa s).2.events.filter isErrorEvent).length =
      (s.events.filter isErrorEvent).length + 2 ∧
    (∀ (clock2 : Nat → Nat) (pr : Except String Unit) (ir : Except String Nat)
       (m : String) (s2 : St),
      (pullModel clock2 false pr ir m s2).1 =
        .error "Ollama server is not accessible" ∧
      ((pullModel clock2 false pr ir m s2).2.events.filter isErrorEvent).length =
        (s2.events.filter isErrorEvent).length + 1) := by
  refine ⟨?_, ?_, ?_⟩
  · simp [syncToGoogleDrive, gdriveSyncUpload, htoken, hfolder, hupload, emit,
      emits]
  · simp [syncToGoogleDrive, gdriveSyncUpload, htoken, hfolder, hupload, emit,
      emits, List.filter_append, isErrorEvent, filter_isErrorEvent_retryMap]
  · intro clock2 pr ir m s2
    constructor
    · simp [pullModel, emit]
    · simp [pullModel, emit, List.filter_append, isErrorEvent]

/-- C6 (counterexample): one upload failure inside `syncToGoogleDrive` is
reported by two error events — `sync_failed` from the cloud layer and
`sync_to_gdrive` from the registry — not exactly one. -/
theorem sync_failure_emits_two_error_events :
    syncFailRun.1 = .error "upload failed" ∧
    syncFailRun.2.events.filter isErrorEvent =
      [.gdriveError "sync_failed" "upload failed",
       .mgrError "sync_to_gdrive" "upload failed"] ∧
    (syncFailRun.2.events.filter isErrorEvent).length = 2 := by
  decide

theorem failure_error_event_counts_witness :
    (syncToGoogleDrive (fun n => n) (fun _ => .error "upload failed") (some "f")
      syncFailSt).1 = .error "upload failed" :=
  (failure_error_event_counts (fun n => n) (fun _ => .error "upload failed")
    (some "f") syncFailSt "upload failed" (by decide) (by decide) (by decide)).1

/-- C8 (counterexample): with a clock stuck at one `Date.now()` value (which
monotone real time permits within a millisecond), two successful `trainModel`
calls with the same `outputName` allocate the same `trainingId`, so the id is
not unique across repeated runs. -/
theorem trainingId_not_unique_counterexample :
    trainRun1.1 = .ok ⟨true, "out_5", "out"⟩ ∧
    trainRun2.1 = .ok ⟨true, "out_5", "out"⟩ := by
  decide

/-- C8 (amended): two successful `trainModel` calls with the same
`outputName` allocate distinct `trainingId` values provided the `Date.now()`
observations of the two calls differ — the id is exactly the output name plus
that timestamp, so equal timestamps give equal ids (see the counterexample) —
and each successful call stores a manifest entry with `source = "trained"`
and `synced = false`. -/
theorem trainModel_distinct_ids (clock : Nat → Nat) (base data out : String)
    (s : St) (hdata : s.fs.dataFiles.contains data = true)
    (hclock : ¬ clock s.tick = clock (s.tick + 2)) :
    (trainModel clock true base data out s).1 =
      .ok ⟨true, mkTrainingId out (clock s.tick), out⟩ ∧
    (trainModel clock true base data out
        (trainModel clock true base data out s).2).1 =
      .ok ⟨true, mkTrainingId out (clock (s.tick + 2)), out⟩ ∧
    ¬ mkTrainingId out (clock s.tick) = mkTrainingId out (clock (s.tick + 2)) ∧
    (∀ v, getEntry out
        (trainModel clock true base data out
          (trainModel clock true base data out s).2).2.config.models = some v →
      v.source = "trained" ∧ v.synced = false) := by
  obtain ⟨h11, h1m, h1c, h1df, h1t⟩ := trainModel_success clock base data out s hdata
  have hdata2 :
      (trainModel clock true base data out s).2.fs.dataFiles.contains data = true := by
    rw [h1df]; exact hdata
  obtain ⟨h21, h2m, h2c, h2df, h2t⟩ :=
    trainModel_success clock base data out (trainModel clock true base data out s).2 hdata2
  rw [h1t] at h21 h2m
  refine ⟨h11, h21, ?_, ?_⟩
  · intro heq
    exact hclock (mkTrainingId_inj_t heq)
  · intro v hv
    rw [h2m, getEntry_setEntry_self] at hv
    obtain rfl := Option.some_inj.mp hv
    exact ⟨rfl, rfl⟩

theorem trainModel_distinct_ids_witness :
    ¬ mkTrainingId "out" 0 = mkTrainingId "out" 2 :=
  (trainModel_distinct_ids (fun n => n) "base" "d" "out" trainSt (by decide)
    (by decide)).2.2.1

/-- C9: when the persisted manifest exists but fails to parse, construction
never raises: it emits exactly one warning and falls back to the empty
registry `{models: {}, settings: {}, gdrive: {}}`; the next successful
mutating operation (here `trainModel`) resolves and rewrites the manifest
file with only the new entry, so every previously recorded entry is lost
without any operation rejecting. -/
theorem corrupt_manifest_fallback (fs : Fs)
    (hcorrupt : fs.configFile = some .corrupt) (clock : Nat → Nat)
    (base data out : String) (hdata : fs.dataFiles.contains data = true) :
    (mkManager fs).config = emptyConfig ∧
    (mkManager fs).events = [.warning "Failed to load config"] ∧
    (trainModel clock true base data out (mkManager fs)).1 =
      .ok ⟨true, mkTrainingId out (clock 0), out⟩ ∧
    (trainModel clock true base data out (mkManager fs)).2.config.models =
      [(out, trainedEntry base data (mkTrainingId out (clock 0)) (clock 1))] ∧
    (trainModel clock true base data out (mkManager fs)).2.fs.configFile =
      some (.good (trainModel clock true base data out (mkManager fs)).2.config) := by
  have hcfg : (mkManager fs).config = emptyConfig := by
    simp [mkManager, loadConfig, hcorrupt]
  have hev : (mkManager fs).events = [.warning "Failed to load config"] := by
    simp [mkManager, loadConfig, hcorrupt]
  have hdata2 : (mkManager fs).fs.dataFiles.contains data = true := by
    simpa [mkManager] using hdata
  obtain ⟨ht1, htm, htc, htdf, httick⟩ :=
    trainModel_success clock base data out (mkManager fs) hdata2
  refine ⟨hcfg, hev, ht1, ?_, htc⟩
  rw [htm, hcfg]
  simp [emptyConfig, setEntry, mkManager]

theorem corrupt_manifest_fallback_witness :
    (mkManager corruptFs).config = emptyConfig :=
  (corrupt_manifest_fallback corruptFs rfl (fun n => n) "b" "d" "o"
    (by decide)).1

/-- C10: `deleteModel(name, true, false)` for a name with no manifest entry
resolves with the success marker, removes no local artifact directory (the
removal is gated on the manifest entry existing), leaves every manifest entry
unchanged, and never rejects. -/
theorem deleteModel_untracked_noop (rr : Except String Unit) (m : String)
    (s : St) (habsent : getEntry m s.config.models = none) :
    (deleteModel rr m true false s).1 = .ok ⟨true, m⟩ ∧
    (deleteModel rr m true false s).2.config.models = s.config.models ∧
    (deleteModel rr m true false s).2.fs.modelDirs = s.fs.modelDirs := by
  simp [deleteModel, habsent, emit, saveConfig]

theorem deleteModel_untracked_noop_witness :
    (deleteModel (.ok ()) "x" true false (mkManager untrackedFs)).1 =
      .ok ⟨true, "x"⟩ :=
  (deleteModel_untracked_noop (.ok ()) "x" (mkManager untrackedFs)
    (by decide)).1

end ModelManager
